import Mathlib

/-!
Verification of the `KuduScanNodeBase` core (Impala Kudu scan node base class,
`be/src/exec/kudu-scan-node-base.h`): token distribution, the runtime-filter
admission gate, and once-only counter finalization.

The repository provides the class declaration (its data members and the doc
comments of its methods); the method bodies live in a `.cc` file that is not
part of the source tree given here.  The state is embedded from the header's
data members; each operation is modelled from the specification's contract for
it, as noted in its doc comment.
-/

namespace KuduScan

/-- Outcome of the filter admission gate: either all expected runtime filters
arrived before the deadline, or the wait timed out. -/
inductive GateOutcome where
  | Satisfied : GateOutcome
  | TimedOut : GateOutcome
deriving DecidableEq, Repr

/-- State of a `KuduScanNodeBase` instance, embedded from the data members in
`be/src/exec/kudu-scan-node-base.h`:

* `scan_tokens_` — the immutable set of scan tokens to be handed to scanners
  (line 104); a token is an opaque byte string.
* `next_scan_token_idx_` — the next index in `scan_tokens_` to be assigned
  (line 107).
* `filter_ctxs_` — the expected runtime filters (line 64); each is abstracted
  to its arrival time in milliseconds, `none` meaning the filter never arrives.
* `initial_ranges_issued_` — set to true when the initial scan ranges are
  issued (line 69).
* `counters_running_` — true while counters are actively running (line 101).
* `kudu_round_trips_`, `kudu_remote_tokens_` — the accumulating counters
  (lines 109-110).
* `published` — the finalized counter value set handed to the reporting
  surface, `none` until finalization publishes it. -/
structure KuduScanNodeBase where
  scan_tokens_ : List String
  next_scan_token_idx_ : Nat
  filter_ctxs_ : List (Option Nat)
  initial_ranges_issued_ : Bool
  counters_running_ : Bool
  kudu_round_trips_ : Nat
  kudu_remote_tokens_ : Nat
  published : Option (Nat × Nat)
deriving DecidableEq, Repr

/-- Returns the total number of scan tokens (header line 52,
`int NumScanTokens() { return scan_tokens_.size(); }`). -/
def NumScanTokens (s : KuduScanNodeBase) : Nat :=
  s.scan_tokens_.length

/-- Modelled from the spec: the body of `HasScanToken` is not under `src/`
(only its declaration, header line 55: "Returns whether there are any scan
tokens remaining").  Per the spec, `Remaining()` is true iff a subsequent
`TryTake` would succeed: the cursor has not reached the end. -/
def HasScanToken (s : KuduScanNodeBase) : Bool :=
  s.next_scan_token_idx_ < s.scan_tokens_.length

/-- Modelled from the spec: the body of `GetNextScanToken` is not under `src/`
(only its declaration, header lines 57-59: "Returns the next scan token.
Returns NULL if there are no more scan tokens.").  Per the spec, `TryTake`
returns the token at the current cursor and advances the cursor atomically,
and returns empty when the cursor has reached the end. -/
def GetNextScanToken (s : KuduScanNodeBase) : Option String × KuduScanNodeBase :=
  if s.next_scan_token_idx_ < s.scan_tokens_.length then
    (s.scan_tokens_[s.next_scan_token_idx_]?,
      { s with next_scan_token_idx_ := s.next_scan_token_idx_ + 1 })
  else
    (none, s)

/-- Modelled from the spec: the body of `StopAndFinalizeCounters` is not under
`src/` (only its declaration, header lines 75-81: "This can be called multiple
times, subsequent calls will be ignored").  The first effective call publishes
the accumulated counter values and stops the counters; when
`counters_running_` is already false the call is a no-op. -/
def StopAndFinalizeCounters (s : KuduScanNodeBase) : KuduScanNodeBase :=
  if s.counters_running_ then
    { s with
      counters_running_ := false
      published := some (s.kudu_round_trips_, s.kudu_remote_tokens_) }
  else
    s

/-- Modelled from the spec: a worker reports partial counters (spec §4.3,
`Report(partialCounters)`); accumulation is a per-metric sum. -/
def Report (s : KuduScanNodeBase) (round_trips remote_tokens : Nat) :
    KuduScanNodeBase :=
  { s with
    kudu_round_trips_ := s.kudu_round_trips_ + round_trips
    kudu_remote_tokens_ := s.kudu_remote_tokens_ + remote_tokens }

/-- Modelled from the spec: the body of `WaitForRuntimeFilters` is not under
`src/` (only its declaration, header line 61,
`bool WaitForRuntimeFilters(int32_t time_ms)`).  Per the spec, `AwaitAll`
blocks until every expected filter has arrived or the timeout elapses,
whichever is first; the result is the outcome together with the elapsed wait
in milliseconds (the latest arrival when satisfied, the full timeout when
timed out; zero when no filters are expected). -/
def WaitForRuntimeFilters (s : KuduScanNodeBase) (time_ms : Nat) :
    GateOutcome × Nat :=
  if s.filter_ctxs_.all (fun a => a.getD (time_ms + 1) ≤ time_ms) then
    (GateOutcome.Satisfied, (s.filter_ctxs_.map (fun a => a.getD 0)).foldr max 0)
  else
    (GateOutcome.TimedOut, time_ms)

/-- Modelled from the spec: the body of `IssueRuntimeFilters` is not under
`src/` (only its declaration, header lines 71-73: "Only valid to call if
!initial_ranges_issued_.  Sets initial_ranges_issued_ to true").  Per the
spec, a second call on the same instance is a programming error rejected with
an observable failure; the first call waits for the runtime filters and opens
the gate. -/
def IssueRuntimeFilters (s : KuduScanNodeBase) (time_ms : Nat) :
    Except String (GateOutcome × Nat × KuduScanNodeBase) :=
  if s.initial_ranges_issued_ then
    Except.error "IssueRuntimeFilters called twice"
  else
    let r := WaitForRuntimeFilters s time_ms
    Except.ok (r.1, r.2, { s with initial_ranges_issued_ := true })

/-- A sequence of `k` successive `GetNextScanToken` calls on one state,
collecting each call's result in order together with the final state.  This is
the sequential (single-caller) consumption trace of the token pool. -/
def runTakes : KuduScanNodeBase → Nat → List (Option String) × KuduScanNodeBase
  | s, 0 => ([], s)
  | s, k + 1 =>
    let r := GetNextScanToken s
    let rest := runTakes r.2 k
    (r.1 :: rest.1, rest.2)

/-- An interleaved execution of `GetNextScanToken` by concurrent workers.
Because the cursor advance is atomic (spec §5: "an atomic or mutex-protected
increment-and-fetch"), a concurrent execution linearizes into some schedule: a
list giving, per step, the id of the worker whose call is served next.  Each
successful call emits `(worker, index, token)`; exhausted calls emit
nothing. -/
def runSchedule : KuduScanNodeBase → List Nat →
    List (Nat × Nat × String) × KuduScanNodeBase
  | s, [] => ([], s)
  | s, w :: ws =>
    match GetNextScanToken s with
    | (some tok, s') =>
      let rest := runSchedule s' ws
      ((w, s.next_scan_token_idx_, tok) :: rest.1, rest.2)
    | (none, s') => runSchedule s' ws

/-- Observable result of one worker take request. -/
inductive TakeResult where
  | token : String → TakeResult
  | empty : TakeResult
  | rejected : TakeResult
deriving DecidableEq, Repr

/-- Events of the scan-node execution relevant to the admission gate:
`openGate time_ms` is the coordinator running `IssueRuntimeFilters` with the
given timeout, `tryTake` is a worker requesting a token, and `finalize` is a
shutdown path calling `StopAndFinalizeCounters`. -/
inductive ScanEvent where
  | openGate : Nat → ScanEvent
  | tryTake : ScanEvent
  | finalize : ScanEvent
deriving DecidableEq, Repr

/-- Modelled from the spec: one atomic step of the scan-node execution (the
method bodies are not under `src/`).  Per the spec (§5), "the gate must open
before the pool is allowed to be drained", and issuing tokens before the gate
opens is a programming error that fails fast (§7): a `tryTake` while
`initial_ranges_issued_` is still false is rejected and does not hand out a
token.  The other events run the corresponding operation. -/
def stepEvent (s : KuduScanNodeBase) :
    ScanEvent → KuduScanNodeBase × Option TakeResult
  | ScanEvent.openGate time_ms =>
    match IssueRuntimeFilters s time_ms with
    | Except.ok (_, _, s') => (s', none)
    | Except.error _ => (s, none)
  | ScanEvent.tryTake =>
    if s.initial_ranges_issued_ then
      match GetNextScanToken s with
      | (some tok, s') => (s', some (TakeResult.token tok))
      | (none, s') => (s', some TakeResult.empty)
    else
      (s, some TakeResult.rejected)
  | ScanEvent.finalize => (StopAndFinalizeCounters s, none)

/-- Runs a list of events from a state, collecting each event's observable
output (`none` for non-take events). -/
def runEvents : KuduScanNodeBase → List ScanEvent →
    List (Option TakeResult) × KuduScanNodeBase
  | s, [] => ([], s)
  | s, e :: es =>
    let r := stepEvent s e
    let rest := runEvents r.1 es
    (r.2 :: rest.1, rest.2)

end KuduScan

namespace KuduScan

/-- Helper: `GetNextScanToken` only moves the cursor, and only forward. -/
theorem getNextScanToken_state (s : KuduScanNodeBase) :
    (GetNextScanToken s).2 =
      if s.next_scan_token_idx_ < s.scan_tokens_.length then
        { s with next_scan_token_idx_ := s.next_scan_token_idx_ + 1 }
      else s := by
  unfold GetNextScanToken
  by_cases h : s.next_scan_token_idx_ < s.scan_tokens_.length <;> simp [h]

/-- Helper: closed form of a sequential consumption trace.  Starting from a
cursor `c ≤ N` (`N` the token count), `k` calls return the tokens from `c`
on, wrapped in `some`, padded with `none` once the pool is exhausted, and the
final state is the start state with the cursor at `min (c + k) N`. -/
theorem runTakes_closed_form (k : Nat) (s : KuduScanNodeBase)
    (hc : s.next_scan_token_idx_ ≤ s.scan_tokens_.length) :
    (runTakes s k).1 =
      ((s.scan_tokens_.drop s.next_scan_token_idx_).map some).take k ++
        List.replicate (k - (s.scan_tokens_.length - s.next_scan_token_idx_))
          none ∧
    (runTakes s k).2 =
      { s with next_scan_token_idx_ := min (s.next_scan_token_idx_ + k) s.scan_tokens_.length } := by
  induction k generalizing s with
  | zero =>
    refine ⟨by simp [runTakes], ?_⟩
    simp only [runTakes]
    rw [Nat.add_zero, min_eq_left hc]
  | succ k ih =>
    by_cases h : s.next_scan_token_idx_ < s.scan_tokens_.length
    · have hstep : GetNextScanToken s =
          (some (s.scan_tokens_.get ⟨s.next_scan_token_idx_, h⟩),
            { s with next_scan_token_idx_ := s.next_scan_token_idx_ + 1 }) := by
        unfold GetNextScanToken
        simp [h, List.getElem?_eq_getElem h]
      obtain ⟨ih1, ih2⟩ := ih
        { s with next_scan_token_idx_ := s.next_scan_token_idx_ + 1 }
        (by simpa using h)
      constructor
      · show (GetNextScanToken s).1 :: (runTakes (GetNextScanToken s).2 k).1 = _
        rw [hstep]
        simp only [ih1]
        rw [List.drop_eq_getElem_cons h]
        simp only [List.map_cons, List.take_succ_cons, List.cons_append,
          List.get_eq_getElem]
        have harith :
            k + 1 - (s.scan_tokens_.length - s.next_scan_token_idx_) =
              k - (s.scan_tokens_.length - (s.next_scan_token_idx_ + 1)) := by
          omega
        rw [harith]
      · show (runTakes (GetNextScanToken s).2 k).2 = _
        rw [hstep]
        simp only [ih2]
        have harith : s.next_scan_token_idx_ + 1 + k =
            s.next_scan_token_idx_ + (k + 1) := by omega
        rw [harith]
    · have hc' : s.next_scan_token_idx_ = s.scan_tokens_.length := by omega
      have hstep : GetNextScanToken s = (none, s) := by
        unfold GetNextScanToken
        simp [h]
      have hdrop : s.scan_tokens_.drop s.next_scan_token_idx_ = [] :=
        List.drop_eq_nil_of_le (le_of_eq hc'.symm)
      obtain ⟨ih1, ih2⟩ := ih s hc
      constructor
      · show (GetNextScanToken s).1 :: (runTakes (GetNextScanToken s).2 k).1 = _
        rw [hstep]
        simp only [ih1, hdrop, hc']
        simp [List.replicate_succ]
      · show (runTakes (GetNextScanToken s).2 k).2 = _
        rw [hstep]
        simp only [ih2, hc']
        simp

/-- Claim C2 — sequential consumption: starting from a freshly populated pool
(cursor 0, `N` tokens), `K` calls to `GetNextScanToken` return exactly the
tokens of the original sequence in order, wrapped in `some` (the k-th
successful call returns the token at index k-1), padded with `none` for every
call after the N-th; and the cursor after `k` calls is `min k N`, hence
monotonically non-decreasing and never exceeding the token count, with each
index 0..N-1 handed out exactly once. -/
theorem getNextScanToken_sequential_spec (s : KuduScanNodeBase)
    (h0 : s.next_scan_token_idx_ = 0) (K : Nat) :
    (runTakes s K).1 =
      (s.scan_tokens_.map some).take K ++
        List.replicate (K - s.scan_tokens_.length) none ∧
    (∀ k, ((runTakes s k).2).next_scan_token_idx_ =
      min k s.scan_tokens_.length) ∧
    (∀ k, ((runTakes s k).2).next_scan_token_idx_ ≤
      ((runTakes s (k + 1)).2).next_scan_token_idx_) ∧
    (∀ k, ((runTakes s k).2).next_scan_token_idx_ ≤ s.scan_tokens_.length) := by
  have hc : s.next_scan_token_idx_ ≤ s.scan_tokens_.length := by
    rw [h0]; exact Nat.zero_le _
  have hcur : ∀ k, ((runTakes s k).2).next_scan_token_idx_ =
      min k s.scan_tokens_.length := by
    intro k
    rw [(runTakes_closed_form k s hc).2, h0]
    simp
  refine ⟨?_, hcur, ?_, ?_⟩
  · have := (runTakes_closed_form K s hc).1
    rw [h0] at this
    simpa using this
  · intro k
    rw [hcur k, hcur (k + 1)]
    omega
  · intro k
    rw [hcur k]
    omega

/-- Witness for C2 at a concrete three-token pool drained by five calls. -/
theorem getNextScanToken_sequential_spec_witness :
    (runTakes ⟨["a", "b", "c"], 0, [], true, true, 0, 0, none⟩ 5).1 =
      ((["a", "b", "c"].map some).take 5 ++ List.replicate (5 - 3) none) ∧
    (∀ k, ((runTakes ⟨["a", "b", "c"], 0, [], true, true, 0, 0, none⟩ k).2).next_scan_token_idx_ =
      min k 3) ∧
    (∀ k, ((runTakes ⟨["a", "b", "c"], 0, [], true, true, 0, 0, none⟩ k).2).next_scan_token_idx_ ≤
      ((runTakes ⟨["a", "b", "c"], 0, [], true, true, 0, 0, none⟩ (k + 1)).2).next_scan_token_idx_) ∧
    (∀ k, ((runTakes ⟨["a", "b", "c"], 0, [], true, true, 0, 0, none⟩ k).2).next_scan_token_idx_ ≤ 3) :=
  getNextScanToken_sequential_spec
    ⟨["a", "b", "c"], 0, [], true, true, 0, 0, none⟩ rfl 5

/-- Helper: the `(index, token)` pairs emitted by a schedule are the pairs of
the token sequence from the cursor on, cut off at the schedule's length. -/
theorem runSchedule_emissions (sched : List Nat) (s : KuduScanNodeBase) :
    (runSchedule s sched).1.map (fun e => e.2) =
      ((List.range' s.next_scan_token_idx_
          (s.scan_tokens_.length - s.next_scan_token_idx_)).zip
        (s.scan_tokens_.drop s.next_scan_token_idx_)).take sched.length := by
  induction sched generalizing s with
  | nil => simp [runSchedule]
  | cons w ws ih =>
    by_cases h : s.next_scan_token_idx_ < s.scan_tokens_.length
    · have hstep : GetNextScanToken s =
          (some (s.scan_tokens_.get ⟨s.next_scan_token_idx_, h⟩),
            { s with next_scan_token_idx_ := s.next_scan_token_idx_ + 1 }) := by
        unfold GetNextScanToken
        simp [h, List.getElem?_eq_getElem h]
      have hrng : s.scan_tokens_.length - s.next_scan_token_idx_ =
          (s.scan_tokens_.length - (s.next_scan_token_idx_ + 1)) + 1 := by
        omega
      simp only [runSchedule, hstep, List.map_cons]
      rw [ih { s with next_scan_token_idx_ := s.next_scan_token_idx_ + 1 }]
      dsimp only
      rw [hrng, List.range'_succ, List.drop_eq_getElem_cons h,
        List.zip_cons_cons, List.length_cons, List.take_succ_cons]
      simp only [List.get_eq_getElem]
    · have hstep : GetNextScanToken s = (none, s) := by
        unfold GetNextScanToken
        simp [h]
      have hrng : s.scan_tokens_.length - s.next_scan_token_idx_ = 0 := by
        omega
      simp only [runSchedule, hstep]
      rw [ih s, hrng]
      simp

/-- Claim C1 — exactly-once concurrent distribution: the cursor advance is
atomic, so any concurrent execution by any number of workers linearizes into
a schedule (an arbitrary interleaving, one worker id per served call).  For
every schedule long enough to drain a freshly populated pool, the `(index,
token)` pairs handed out across all workers are exactly `(0, t₀), ..., (N-1,
t_{N-1})` — the original token sequence, each index exactly once, no
duplicate and no skipped index — and each emitted pair carries the single
worker id that received it. -/
theorem tryTake_concurrent_exactly_once (s : KuduScanNodeBase)
    (h0 : s.next_scan_token_idx_ = 0) (sched : List Nat)
    (hlen : s.scan_tokens_.length ≤ sched.length) :
    (runSchedule s sched).1.map (fun e => e.2) =
      (List.range s.scan_tokens_.length).zip s.scan_tokens_ ∧
    (runSchedule s sched).1.map (fun e => e.2.2) = s.scan_tokens_ := by
  have hmain : (runSchedule s sched).1.map (fun e => e.2) =
      (List.range s.scan_tokens_.length).zip s.scan_tokens_ := by
    rw [runSchedule_emissions sched s, h0]
    simp only [Nat.sub_zero, List.drop_zero]
    rw [← List.range_eq_range']
    refine List.take_of_length_le ?_
    rw [List.length_zip, List.length_range]
    omega
  refine ⟨hmain, ?_⟩
  have hcomp : (fun (e : Nat × Nat × String) => e.2.2) =
      Prod.snd ∘ (fun (e : Nat × Nat × String) => e.2) := rfl
  rw [hcomp, ← List.map_map, hmain]
  exact List.map_snd_zip _ _ (by rw [List.length_range])

/-- Witness for C1: three tokens drained by two workers (ids 0 and 1) under
an interleaved four-step schedule. -/
theorem tryTake_concurrent_exactly_once_witness :
    (runSchedule ⟨["a", "b", "c"], 0, [], true, true, 0, 0, none⟩
        [0, 1, 1, 0]).1.map (fun e => e.2) =
      (List.range 3).zip ["a", "b", "c"] ∧
    (runSchedule ⟨["a", "b", "c"], 0, [], true, true, 0, 0, none⟩
        [0, 1, 1, 0]).1.map (fun e => e.2.2) = ["a", "b", "c"] :=
  tryTake_concurrent_exactly_once
    ⟨["a", "b", "c"], 0, [], true, true, 0, 0, none⟩ rfl [0, 1, 1, 0]
    (by decide)

/-- Claim C8 — `HasScanToken` returns true exactly when a `GetNextScanToken`
performed at the same state would return a token rather than NULL. -/
theorem hasScanToken_iff_take_succeeds (s : KuduScanNodeBase) :
    HasScanToken s = true ↔ ∃ tok s', GetNextScanToken s = (some tok, s') := by
  unfold HasScanToken GetNextScanToken
  constructor
  · intro h
    rw [decide_eq_true_eq] at h
    refine ⟨s.scan_tokens_.get ⟨s.next_scan_token_idx_, h⟩,
      { s with next_scan_token_idx_ := s.next_scan_token_idx_ + 1 }, ?_⟩
    simp [h, List.getElem?_eq_getElem h]
  · rintro ⟨tok, s', h⟩
    by_cases hlt : s.next_scan_token_idx_ < s.scan_tokens_.length
    · simpa using hlt
    · simp [hlt] at h

/-- Claim C10 — `GetNextScanToken` is total on every pool state: when the
cursor has reached the end of the token sequence (in particular when the
sequence is empty), it returns NULL and leaves the state unchanged, with no
out-of-bounds access and no error, and `HasScanToken` is false there. -/
theorem getNextScanToken_total_at_end (s : KuduScanNodeBase)
    (h : s.scan_tokens_.length ≤ s.next_scan_token_idx_) :
    GetNextScanToken s = (none, s) ∧ HasScanToken s = false := by
  unfold GetNextScanToken HasScanToken
  have hlt : ¬ s.next_scan_token_idx_ < s.scan_tokens_.length := not_lt.mpr h
  simp [hlt]

/-- Witness for C10 at a concrete empty pool. -/
theorem getNextScanToken_total_at_end_witness :
    GetNextScanToken ⟨[], 0, [], false, true, 0, 0, none⟩ =
      (none, ⟨[], 0, [], false, true, 0, 0, none⟩) ∧
    HasScanToken ⟨[], 0, [], false, true, 0, 0, none⟩ = false :=
  getNextScanToken_total_at_end ⟨[], 0, [], false, true, 0, 0, none⟩
    (by decide)

/-- Helper: finalizing twice equals finalizing once. -/
theorem finalize_finalize (s : KuduScanNodeBase) :
    StopAndFinalizeCounters (StopAndFinalizeCounters s) =
      StopAndFinalizeCounters s := by
  unfold StopAndFinalizeCounters
  by_cases h : s.counters_running_ <;> simp [h]

/-- Claim C3 — `StopAndFinalizeCounters` is idempotent: the first call stops
the counters and publishes the values, and a repeated call is a no-op leaving
the state (in particular the published counter values) exactly as after a
single call. -/
theorem stopAndFinalizeCounters_idempotent (s : KuduScanNodeBase) :
    StopAndFinalizeCounters (StopAndFinalizeCounters s) =
      StopAndFinalizeCounters s ∧
    (StopAndFinalizeCounters s).counters_running_ = false := by
  refine ⟨finalize_finalize s, ?_⟩
  unfold StopAndFinalizeCounters
  by_cases h : s.counters_running_ <;> simp [h]

/-- Claim C4 — `StopAndFinalizeCounters` invoked `K ≥ 1` times (each call is
atomic, so a concurrent execution by K threads after all `Report` calls have
completed is some sequence of K calls) produces exactly the state of a single
call, identical regardless of K. -/
theorem stopAndFinalizeCounters_iterate (s : KuduScanNodeBase) (K : Nat)
    (hK : 1 ≤ K) :
    StopAndFinalizeCounters^[K] s = StopAndFinalizeCounters s := by
  induction K with
  | zero => exact absurd hK (by decide)
  | succ n ih =>
    rcases Nat.eq_or_lt_of_le hK with h1 | h1
    · rw [← h1]
      simp
    · have hn : 1 ≤ n := Nat.lt_succ_iff.mp h1
      rw [Function.iterate_succ_apply', ih hn]
      exact finalize_finalize s

/-- Witness for C4 at K = 3 on a concrete running-counter state. -/
theorem stopAndFinalizeCounters_iterate_witness :
    StopAndFinalizeCounters^[3] ⟨["t0"], 0, [], false, true, 7, 2, none⟩ =
      StopAndFinalizeCounters ⟨["t0"], 0, [], false, true, 7, 2, none⟩ :=
  stopAndFinalizeCounters_iterate ⟨["t0"], 0, [], false, true, 7, 2, none⟩ 3
    (by decide)

/-- Claim C9 — when no runtime filters are expected, the filter wait returns
immediately: the outcome is `Satisfied` and the elapsed wait is zero, for any
configured timeout. -/
theorem waitForRuntimeFilters_no_filters_immediate (s : KuduScanNodeBase)
    (time_ms : Nat) (h : s.filter_ctxs_ = []) :
    WaitForRuntimeFilters s time_ms = (GateOutcome.Satisfied, 0) := by
  unfold WaitForRuntimeFilters
  simp [h]

/-- Witness for C9 at a concrete state with no expected filters. -/
theorem waitForRuntimeFilters_no_filters_immediate_witness :
    WaitForRuntimeFilters ⟨["t0"], 0, [], false, true, 0, 0, none⟩ 1000 =
      (GateOutcome.Satisfied, 0) :=
  waitForRuntimeFilters_no_filters_immediate
    ⟨["t0"], 0, [], false, true, 0, 0, none⟩ 1000 rfl

/-- Claim C5 — `IssueRuntimeFilters` may run at most once per scan: a
successful call sets the one-shot flag `initial_ranges_issued_`, and a second
call on the resulting instance is rejected with an observable failure rather
than waiting again. -/
theorem issueRuntimeFilters_second_call_rejected (s : KuduScanNodeBase)
    (time_ms : Nat) (o : GateOutcome) (w : Nat) (s' : KuduScanNodeBase)
    (h : IssueRuntimeFilters s time_ms = Except.ok (o, w, s')) :
    s'.initial_ranges_issued_ = true ∧
    ∀ t, ∃ msg, IssueRuntimeFilters s' t = Except.error msg := by
  have hs : s' = { s with initial_ranges_issued_ := true } := by
    unfold IssueRuntimeFilters at h
    by_cases hi : s.initial_ranges_issued_
    · simp [hi] at h
    · simp only [hi, Bool.false_eq_true, if_false, Except.ok.injEq,
        Prod.mk.injEq] at h
      exact h.2.2.symm
  subst hs
  refine ⟨rfl, fun t => ⟨"IssueRuntimeFilters called twice", ?_⟩⟩
  unfold IssueRuntimeFilters
  simp

/-- Witness for C5: a concrete first call succeeds and the second call on the
resulting state is rejected. -/
theorem issueRuntimeFilters_second_call_rejected_witness :
    (⟨["t0"], 0, [some 5], true, true, 0, 0, none⟩ :
        KuduScanNodeBase).initial_ranges_issued_ = true ∧
    ∀ t, ∃ msg,
      IssueRuntimeFilters ⟨["t0"], 0, [some 5], true, true, 0, 0, none⟩ t =
        Except.error msg :=
  issueRuntimeFilters_second_call_rejected
    ⟨["t0"], 0, [some 5], false, true, 0, 0, none⟩ 100
    GateOutcome.Satisfied 5 ⟨["t0"], 0, [some 5], true, true, 0, 0, none⟩
    (by rfl)

/-- Claim C7 — a filter-wait timeout is not an error: on a gate not yet
opened whose expected filters never arrive, `IssueRuntimeFilters` returns
success carrying the `TimedOut` outcome after exactly the configured wait,
the scan proceeds, and a subsequent `GetNextScanToken` on the resulting state
still returns a token (given tokens remain). -/
theorem filter_timeout_not_error (s : KuduScanNodeBase) (time_ms : Nat)
    (hopen : s.initial_ranges_issued_ = false)
    (hne : s.filter_ctxs_ ≠ [])
    (hnever : ∀ a ∈ s.filter_ctxs_, a = none)
    (htok : s.next_scan_token_idx_ < s.scan_tokens_.length) :
    ∃ s', IssueRuntimeFilters s time_ms =
        Except.ok (GateOutcome.TimedOut, time_ms, s') ∧
      ∃ tok s'', GetNextScanToken s' = (some tok, s'') := by
  have hwait : WaitForRuntimeFilters s time_ms = (GateOutcome.TimedOut, time_ms) := by
    unfold WaitForRuntimeFilters
    obtain ⟨a, as, hcons⟩ := List.exists_cons_of_ne_nil hne
    have ha : a = none := hnever a (hcons ▸ List.mem_cons_self a as)
    rw [if_neg]
    intro hall
    rw [List.all_eq_true] at hall
    have := hall a (hcons ▸ List.mem_cons_self a as)
    rw [ha] at this
    simp [Option.getD] at this
  refine ⟨{ s with initial_ranges_issued_ := true }, ?_, ?_⟩
  · unfold IssueRuntimeFilters
    rw [if_neg (by simp [hopen]), hwait]
  · refine ⟨s.scan_tokens_.get ⟨s.next_scan_token_idx_, htok⟩,
      { s with initial_ranges_issued_ := true,
               next_scan_token_idx_ := s.next_scan_token_idx_ + 1 }, ?_⟩
    unfold GetNextScanToken
    simp [htok, List.getElem?_eq_getElem htok]

/-- Witness for C7: one expected filter that never arrives, a 200 ms timeout
and one remaining token. -/
theorem filter_timeout_not_error_witness :
    ∃ s', IssueRuntimeFilters ⟨["t0"], 0, [none], false, true, 0, 0, none⟩ 200 =
        Except.ok (GateOutcome.TimedOut, 200, s') ∧
      ∃ tok s'', GetNextScanToken s' = (some tok, s'') :=
  filter_timeout_not_error ⟨["t0"], 0, [none], false, true, 0, 0, none⟩ 200
    (by decide) (by decide) (by decide) (by decide)

/-- Helper: counter finalization does not touch the admission-gate flag. -/
theorem finalize_preserves_issued (s : KuduScanNodeBase) :
    (StopAndFinalizeCounters s).initial_ranges_issued_ =
      s.initial_ranges_issued_ := by
  unfold StopAndFinalizeCounters
  by_cases h : s.counters_running_ <;> simp [h]

/-- Helper: unfolding one event of `runEvents`. -/
theorem runEvents_cons (s : KuduScanNodeBase) (e : ScanEvent)
    (es : List ScanEvent) :
    runEvents s (e :: es) =
      ((stepEvent s e).2 :: (runEvents (stepEvent s e).1 es).1,
        (runEvents (stepEvent s e).1 es).2) := rfl

/-- Claim C6 — gate opening happens-before the first successful take: in
every execution from a state whose gate is still closed
(`initial_ranges_issued_ = false`), if the i-th event's output hands out a
token, then some earlier event (a strictly smaller position j) ran
`IssueRuntimeFilters` and opened the gate. -/
theorem no_take_succeeds_before_gate (es : List ScanEvent)
    (s : KuduScanNodeBase) (hclosed : s.initial_ranges_issued_ = false)
    (i : Nat) (tok : String)
    (hsucc : (runEvents s es).1[i]? = some (some (TakeResult.token tok))) :
    ∃ j t, j < i ∧ es[j]? = some (ScanEvent.openGate t) := by
  induction es generalizing s i with
  | nil => simp [runEvents] at hsucc
  | cons e es ih =>
    rw [runEvents_cons] at hsucc
    cases e with
    | openGate t =>
      cases i with
      | zero =>
        exfalso
        rw [List.getElem?_cons_zero] at hsucc
        cases hIR : IssueRuntimeFilters s t with
        | ok v =>
          obtain ⟨o, w, s'⟩ := v
          simp [stepEvent, hIR] at hsucc
        | error msg =>
          simp [stepEvent, hIR] at hsucc
      | succ k =>
        exact ⟨0, t, Nat.succ_pos k, by simp⟩
    | tryTake =>
      have hstep : stepEvent s ScanEvent.tryTake =
          (s, some TakeResult.rejected) := by
        unfold stepEvent
        simp [hclosed]
      rw [hstep] at hsucc
      cases i with
      | zero =>
        rw [List.getElem?_cons_zero] at hsucc
        simp at hsucc
      | succ k =>
        rw [List.getElem?_cons_succ] at hsucc
        obtain ⟨j, t, hj, hes⟩ := ih s hclosed k hsucc
        exact ⟨j + 1, t, Nat.succ_lt_succ hj, by simpa using hes⟩
    | finalize =>
      have hstep : stepEvent s ScanEvent.finalize =
          (StopAndFinalizeCounters s, none) := rfl
      rw [hstep] at hsucc
      cases i with
      | zero =>
        rw [List.getElem?_cons_zero] at hsucc
        simp at hsucc
      | succ k =>
        rw [List.getElem?_cons_succ] at hsucc
        have hclosed' : (StopAndFinalizeCounters s).initial_ranges_issued_ =
            false := by
          rw [finalize_preserves_issued, hclosed]
        obtain ⟨j, t, hj, hes⟩ := ih (StopAndFinalizeCounters s) hclosed' k hsucc
        exact ⟨j + 1, t, Nat.succ_lt_succ hj, by simpa using hes⟩

/-- Witness for C6: a trace that opens the gate with a 100 ms timeout and
then takes a token; the successful take at position 1 is preceded by the
gate-opening event at position 0. -/
theorem no_take_succeeds_before_gate_witness :
    ∃ j t, j < 1 ∧
      [ScanEvent.openGate 100, ScanEvent.tryTake][j]? =
        some (ScanEvent.openGate t) :=
  no_take_succeeds_before_gate [ScanEvent.openGate 100, ScanEvent.tryTake]
    ⟨["t0"], 0, [], false, true, 0, 0, none⟩ rfl 1 "t0" (by rfl)

end KuduScan
